import Mathlib

/-!
Verification of the `auto.automaton` Clue-Less computer player.

The Python source (`src/auto/automaton.py`) is shallowly embedded below:
the pandas-backed tracking pad becomes a structure of functions from card
names to cells, dictionary payloads become structures with `Option` fields
for possibly-absent keys, in-place mutation becomes explicit state passing,
and a raised exception becomes an error value returned together with the
state at the point of the raise.
-/

namespace Clueless

/-- Tracking sub-table for one observed player.  `c1` is the
"confirmed-has" 0/1 flag per card, `c2` the set of round tokens per card.
Modelled from the spec: the storage itself lives in `auto/pad.py`, which is
not under `src/`; section 6 of the spec gives its contract
(`column1[card] -> \x7b0,1\x7d` read/write, `column2[card] -> set<int>`
read/write/clear). -/
structure Table where
  c1 : String → Nat
  c2 : String → Finset Nat

/-- The tracking pad: one `Table` per tracked player.
Modelled from the spec: `auto/pad.py` is not under `src/`; per section 6,
`listTrackedPlayers()` (the source's `players_list` / `player_pad.keys()`)
is the ordered collection of tracked identities, and the row index
(`.axes[0]`, the source's `_cards`) is the closed recognized-card set. -/
structure Pad where
  players : List String
  cards : List String
  tables : String → Table

/-- The automaton instance state used by the embedded methods. -/
structure Player where
  player_id : String
  pad : Pad
  location : String
  prior_moves : List String

/-- Directed suggestion payload (`game_state['suggestion']`). -/
structure Suggestion where
  to_player : Option String
  cards : List String

/-- Answer payload (`game_state['answer']`); `has_card` and `card` are
optional keys of the dictionary. -/
structure Answer where
  from_player : String
  has_card : Option Bool
  card : Option String

/-- Inbound `game_state` payload: the dictionary keys the source reads. -/
structure GameState where
  positions : List (String × String)
  suggestion : Option Suggestion
  answer : Option Answer
  cards : Option (List String)

/-- Result of one `update` call. -/
inductive UpdateResponse where
  | answerCard (card : String)
  | turnComplete
  | accusationMade (from_player : String) (cards : List String)
  | noResponse
  | runtimeError
  deriving DecidableEq

/-- Python `list.pop()`: remove and return the last element; `none` embeds
the `IndexError` on an empty list. -/
def popLast (l : List String) : Option (String × List String) :=
  match l.reverse with
  | [] => none
  | x :: rest => some (x, rest.reverse)

/-- Write `v` into Column 1 of player `pid` at `card`
(`tbl['c1'][card] = v`). -/
def setC1 (pad : Pad) (pid card : String) (v : Nat) : Pad :=
  { pad with tables := fun p =>
      if p = pid then
        { pad.tables p with c1 := fun w => if w = card then v else (pad.tables p).c1 w }
      else pad.tables p }

/-- Embeds `Player._clear_c2_cells`: for every tracked player, clear the
Column-2 set of `card_provided`. -/
def clear_c2_cells (pad : Pad) (card_provided : String) : Pad :=
  { pad with tables := fun p =>
      if p ∈ pad.players then
        { pad.tables p with c2 := fun w => if w = card_provided then ∅ else (pad.tables p).c2 w }
      else pad.tables p }

/-- The round token `_mark_pad` computes for an undirected answer over the
three popped cards: `len(cell01.union(cell02.union(cell03))) + 1`. -/
def tokenOf (pad : Pad) (P x y z : String) : Nat :=
  ((pad.tables P).c2 x ∪ ((pad.tables P).c2 y ∪ (pad.tables P).c2 z)).card + 1

/-- Embeds the `has_card is True` branch of `Player._mark_pad`: add the
fresh token to the three cards' Column-2 sets in the responding player's
table (`cell01.add(new_entry)` and so on; the token is computed before any
add). -/
def markUndirected (pad : Pad) (P x y z : String) : Pad :=
  { pad with tables := fun q =>
      if q = P then
        { pad.tables q with c2 := fun w =>
            if w = x ∨ w = y ∨ w = z
            then (pad.tables q).c2 w ∪ {tokenOf pad P x y z}
            else (pad.tables q).c2 w }
      else pad.tables q }

/-- Embeds the directed-reveal branch of `Player._mark_pad`: set the
responding player's Column 1 to 1 for the named card, then clear that
card's Column-2 set for every tracked player. -/
def directedReveal (pad : Pad) (P card : String) : Pad :=
  clear_c2_cells (setC1 pad P card 1) card

/-- Inner loop of `Player._get_unknown_cards` for one card: walk the
tracked players in pad order with a counter `i` starting at 0; a Column-1
mark breaks out of the loop, otherwise `i` is incremented, and the card is
added to the unverified set the moment `i` reaches 4 (the source's
hard-coded check `if i == 4`).  Returns whether the card ends up in the
set; once added it can never be removed, so reaching `i = 4` decides the
answer regardless of the remaining players. -/
def unknownGo (pad : Pad) (card : String) : List String → Nat → Bool
  | [], _ => false
  | k :: rest, i =>
    if (pad.tables k).c1 card = 1 then false
    else if i + 1 = 4 then true
    else unknownGo pad card rest (i + 1)

/-- Embeds `Player._get_unknown_cards`: the cards the source's nested loop
adds to `unverified_cards`. -/
def get_unknown_cards (pad : Pad) : List String :=
  pad.cards.filter (fun card => unknownGo pad card pad.players 0)

/-- Embeds `Player._analyze_table_to_accuse`: return the unverified set
exactly when its size is 3, otherwise `None`. -/
def analyze_table_to_accuse (pad : Pad) : Option (List String) :=
  if (get_unknown_cards pad).length = 3 then some (get_unknown_cards pad) else none

/-- Spec-side reading of "unknown": scanning every tracked player's
Column 1 for the card, none shows 1 (section 4.6's predicate, generalized
to any number of tracked players). -/
def cardUnknownSpec (pad : Pad) (card : String) : Bool :=
  pad.players.all (fun p => !((pad.tables p).c1 card = 1 : Bool))

/-- Spec-side accusation analysis: the unknown set is returned exactly
when its size is 3. -/
def accuseSpec (pad : Pad) : Option (List String) :=
  if (pad.cards.filter (cardUnknownSpec pad)).length = 3
  then some (pad.cards.filter (cardUnknownSpec pad)) else none

/-- Embeds `Player._answer`: return the first suggested card whose
Column-1 entry in this player's own table is 1, else the sentinel. -/
def answer (pl : Player) (suggestion : List String) : String :=
  match suggestion.find? (fun card => (pl.pad.tables pl.player_id).c1 card == 1) with
  | some card => card
  | none => "no_match"

/-- Outcome of `Player._mark_pad`: either the accusation verdict of the
final `_analyze_table_to_accuse` call, or a raised exception (a missing
`cards`/`card` key or popping an exhausted list). -/
inductive MarkOutcome where
  | finished (accusation : Option (List String))
  | errored
  deriving DecidableEq

/-- Embeds `Player._mark_pad`.  The undirected branch pops the last three
elements of a copy (`.copy()`) of the payload's top-level card list, so
the payload itself is never written; the state returned with the outcome
is the pad only, and `update` passes the payload through untouched. -/
def mark_pad (pad : Pad) (ans : Answer) (payloadCards : Option (List String)) :
    MarkOutcome × Pad :=
  match ans.has_card with
  | some true =>
    match payloadCards with
    | none => (.errored, pad)
    | some cs =>
      match popLast cs with
      | none => (.errored, pad)
      | some (card01, r1) =>
        match popLast r1 with
        | none => (.errored, pad)
        | some (card02, r2) =>
          match popLast r2 with
          | none => (.errored, pad)
          | some (card03, _) =>
            let pad' := markUndirected pad ans.from_player card01 card02 card03
            (.finished (analyze_table_to_accuse pad'), pad')
  | some false => (.finished (analyze_table_to_accuse pad), pad)
  | none =>
    match ans.card with
    | none => (.errored, pad)
    | some c =>
      let pad' := directedReveal pad ans.from_player c
      (.finished (analyze_table_to_accuse pad'), pad')

/-- The `'answer' in game_state` branch of `Player.update`, followed by
the fall-through `'make_move'` branch (whose guard `not 'make_move'` is
always false, so it is a no-op and the method returns `None`). -/
def updateAnswer (pl : Player) (gs : GameState) : UpdateResponse × Player × GameState :=
  match gs.answer with
  | some ans =>
    match mark_pad pl.pad ans gs.cards with
    | (.errored, pad') => (.runtimeError, { pl with pad := pad' }, gs)
    | (.finished none, pad') => (.turnComplete, { pl with pad := pad' }, gs)
    | (.finished (some acc), pad') =>
        (.accusationMade pl.player_id acc, { pl with pad := pad' }, gs)
  | none => (.noResponse, pl, gs)

/-- Embeds `Player.update`: a suggestion addressed to this player is
answered; otherwise an answer payload is recorded on the pad and checked
for an accusation.  The game-state argument is threaded through and
returned so that any mutation of the payload would be visible. -/
def update (pl : Player) (gs : GameState) : UpdateResponse × Player × GameState :=
  match gs.suggestion with
  | some sg =>
    if sg.to_player = some pl.player_id then
      (.answerCard (answer pl sg.cards), pl, gs)
    else updateAnswer pl gs
  | none => updateAnswer pl gs

/-- Errors raised by `Player.receive_cards` (the source's `IndexError`
and `ValueError`, the spec's `InvalidHandSize` and `UnrecognizedCard`). -/
inductive HandError where
  | invalidHandSize
  | unrecognizedCard (card : String)
  deriving DecidableEq

/-- Embeds `Player._verify_card`: membership in the recognized-card list. -/
def verify_card (pl : Player) (card : String) : Bool :=
  pl.pad.cards.contains card

/-- Embeds `Player._mark_my_cards_on_pad`: set Column 1 to 1 for each
dealt card in this player's own sub-table. -/
def mark_my_cards_on_pad (pl : Player) (dealt_cards : List String) : Player :=
  { pl with pad := dealt_cards.foldl (fun pd card => setC1 pd pl.player_id card 1) pl.pad }

/-- Embeds `Player.receive_cards`: hand-size check, then per-card
verification in order, then marking.  The returned player is the state at
the point of return or raise, so a raise leaves the input state intact. -/
def receive_cards (pl : Player) (dealt_cards : List String) : Player × Option HandError :=
  if ¬ (3 ≤ dealt_cards.length ∧ dealt_cards.length ≤ 6) then
    (pl, some .invalidHandSize)
  else
    match dealt_cards.find? (fun card => !(verify_card pl card)) with
    | some card => (pl, some (.unrecognizedCard card))
    | none => (mark_my_cards_on_pad pl dealt_cards, none)

/-- First stage of `Player._filter_moves`: neighbors that are neither
occupied nor in this player's prior moves. -/
def available_moves (neighbors occupied prior : List String) : List String :=
  neighbors.filter (fun m => decide (m ∉ occupied) && decide (m ∉ prior))

/-- Fallback stage of `Player._filter_moves`: neighbors not occupied,
ignoring visit history. -/
def possible_moves (neighbors occupied : List String) : List String :=
  neighbors.filter (fun m => decide (m ∉ occupied))

/-- Embeds `Player._filter_moves` after `_set_location`: `neighbors` is
the board's 1-hop neighborhood of the current location (the board service
is external, section 6), `occupied` the values of the positions snapshot,
`prior` the visited set.  `choice` stands for `random.sample(s, 1)[0]`,
assumed only to return a member of a non-empty list; Python-set iteration
order is quantified over at the theorems via permutations. -/
def filter_moves (neighbors occupied prior : List String)
    (choice : List String → String) : List String :=
  if available_moves neighbors occupied prior = [] then
    if possible_moves neighbors occupied = [] then []
    else [choice (possible_moves neighbors occupied)]
  else available_moves neighbors occupied prior

/-- Outbound move response. -/
structure TurnResponse where
  move : String
  deriving DecidableEq

/-- Embeds `Player._make_move`: both loop branches return on the first
iterated element, so only the head of the iteration order matters; the
move is recorded into prior moves only when it is new. -/
def make_move (available prior : List String) : TurnResponse × List String :=
  match available with
  | [] => (⟨""⟩, prior)
  | m :: _ => if m ∉ prior then (⟨m⟩, m :: prior) else (⟨m⟩, prior)

/-- Embeds the player-count guard of `Player.__init__` with Python
attribute semantics.  In the source, `self._player_count += 1` reads the
class attribute (a fresh instance has no own `_player_count`) and binds
the incremented value as a new instance attribute, so the class attribute
`Player._player_count` itself is never changed by a construction.  Input:
the class attribute; output: `some k` for a successful construction whose
instance attribute becomes `k`, `none` for the `IndexError` raise, paired
with the class attribute after the call. -/
def playerInitStep (classCount : Nat) : Option Nat × Nat :=
  if classCount ≤ 5 then (some (classCount + 1), classCount) else (none, classCount)

/-- Run `n` consecutive `Player` constructions starting from the given
class attribute, recording whether each one succeeds. -/
def runConstructions : Nat → Nat → List Bool
  | 0, _ => []
  | Nat.succ n, classCount =>
    ((playerInitStep classCount).1.isSome) :: runConstructions n (playerInitStep classCount).2

/-! Concrete fixtures used by the evaluation theorems and witnesses. -/

/-- A blank tracking sub-table: no Column-1 marks, no Column-2 tokens. -/
def tbl0 : Table := ⟨fun _ => 0, fun _ => ∅⟩

/-- A pad tracking three players over three cards, with no marks at all. -/
def pad3 : Pad := ⟨["p01", "p02", "p03"], ["Mustard", "Rope", "Study"], fun _ => tbl0⟩

/-- A blank pad used to replay a sequence of undirected answers. -/
def padU : Pad := ⟨["p02"], ["A", "B", "C", "D", "E", "F", "G"], fun _ => tbl0⟩

/-- State after the first undirected answer, for cards A, B, C. -/
def sU1 : Pad := markUndirected padU "p02" "C" "B" "A"

/-- State after the second undirected answer, for cards A, D, E. -/
def sU2 : Pad := markUndirected sU1 "p02" "E" "D" "A"

/-- A sub-table with two Column-2 token sets populated. -/
def tblW : Table :=
  ⟨fun _ => 0, fun w => if w = "Rope" then {1} else if w = "Knife" then {2} else ∅⟩

/-- A pad with Column-2 noise, for the directed-reveal witness. -/
def padW : Pad := ⟨["p01", "p02", "p03"], ["Mustard", "Rope", "Study", "Knife"], fun _ => tblW⟩

/-- The observing player whose pad records the directed reveal. -/
def plW : Player := ⟨"p01", padW, "Hallway_02", ["Hallway_02"]⟩

/-- A directed-answer payload: p02 reveals the card Rope. -/
def gsW : GameState := ⟨[("p01", "Hallway_02")], none, some ⟨"p02", none, some "Rope"⟩, none⟩

/-- A sub-table where only Rope carries a Column-1 mark. -/
def tblA : Table := ⟨fun w => if w = "Rope" then 1 else 0, fun _ => ∅⟩

/-- A pad in which player p01 is known to hold Rope. -/
def padA : Pad :=
  ⟨["p01", "p02"], ["Mustard", "Rope", "Study", "Knife"],
    fun p => if p = "p01" then tblA else tbl0⟩

/-- The answering player for the directed-suggestion witness. -/
def plA : Player := ⟨"p01", padA, "Hallway_02", ["Hallway_02"]⟩

/-- A suggestion payload addressed to p01 over Mustard, Rope, Study. -/
def gsA : GameState := ⟨[], some ⟨some "p01", ["Mustard", "Rope", "Study"]⟩, none, none⟩

/-- A blank pad over six cards, for the card-receipt witnesses. -/
def padR : Pad :=
  ⟨["p01", "p02", "p03"], ["Mustard", "Rope", "Study", "Knife", "Hall", "White"], fun _ => tbl0⟩

/-- A freshly constructed player about to receive its hand. -/
def plR : Player := ⟨"p01", padR, "Hallway_02", ["Hallway_02"]⟩

/-- A deterministic stand-in for the random sampler in the witnesses. -/
def headChoice (l : List String) : String := l.headD ""

/-! Helper lemmas about the pad-writing primitives. -/

theorem setC1_c1_self (pad : Pad) (pid card : String) (v : Nat) :
    ((setC1 pad pid card v).tables pid).c1 card = v := by
  simp [setC1]

theorem setC1_c1_other (pad : Pad) (pid card : String) (v : Nat) (p w : String)
    (h : ¬(p = pid ∧ w = card)) :
    ((setC1 pad pid card v).tables p).c1 w = (pad.tables p).c1 w := by
  simp only [setC1]
  by_cases hp : p = pid
  · subst hp
    have hw : w ≠ card := fun hw => h ⟨rfl, hw⟩
    simp [hw]
  · simp [hp]

theorem setC1_c2 (pad : Pad) (pid card : String) (v : Nat) (p : String) :
    ((setC1 pad pid card v).tables p).c2 = (pad.tables p).c2 := by
  simp only [setC1]
  split <;> rfl

theorem setC1_tables_other (pad : Pad) (pid card : String) (v : Nat) (p : String)
    (h : p ≠ pid) : (setC1 pad pid card v).tables p = pad.tables p := by
  simp [setC1, h]

theorem clear_c2_cells_c1 (pad : Pad) (card p : String) :
    ((clear_c2_cells pad card).tables p).c1 = (pad.tables p).c1 := by
  simp only [clear_c2_cells]
  split <;> rfl

theorem clear_c2_cells_c2_tracked (pad : Pad) (card p : String) (hp : p ∈ pad.players) :
    ((clear_c2_cells pad card).tables p).c2 card = ∅ := by
  simp [clear_c2_cells, hp]

theorem clear_c2_cells_c2_other (pad : Pad) (card p w : String) (hw : w ≠ card) :
    ((clear_c2_cells pad card).tables p).c2 w = (pad.tables p).c2 w := by
  simp only [clear_c2_cells]
  split
  · simp [hw]
  · rfl

/-! Claim theorems. -/

/-- C1 (code_bug evaluation): the accusation analysis is hard-coded to a
counter reaching 4, so with three tracked players and all three cards
unknown by the spec's scan (no player's Column 1 shows 1), the source's
analysis produces no accusation while the spec-side analysis returns
exactly those three cards. -/
theorem accuse_check_hardcoded_four_eval :
    analyze_table_to_accuse pad3 = none
      ∧ accuseSpec pad3 = some ["Mustard", "Rope", "Study"] :=
  ⟨rfl, rfl⟩

/-- C2 (counterexample): round tokens are not unique per
(player, response event).  Replaying three undirected answers from p02 on
a blank pad — for cards A,B,C, then A,D,E, then D,F,G — the second and
the third response events are both assigned token 2, and after the third
event token 2 sits in A's Column-2 set (from the second event) as well as
in F's (from the third), so it links cards of two different responses. -/
theorem mark_pad_token_reused :
    tokenOf sU1 "p02" "E" "D" "A" = 2
      ∧ tokenOf sU2 "p02" "G" "F" "D" = 2
      ∧ (sU2.tables "p02").c2 "A" = {1, 2}
      ∧ (((markUndirected sU2 "p02" "G" "F" "D").tables "p02").c2 "F") = {2} := by
  refine ⟨rfl, rfl, by decide, by decide⟩

/-- C2 (amended): an undirected "has one of these three" signal from
player P for cards x, y, z adds the single token
`|c2 x ∪ c2 y ∪ c2 z| + 1` to all three cards' Column-2 sets in P's
table and changes nothing else; the token is however not guaranteed
unique per (player, response event). -/
theorem mark_pad_undirected_adds_shared_token (pad : Pad) (P x y z : String) :
    ((markUndirected pad P x y z).tables P).c2 x
        = (pad.tables P).c2 x ∪ {tokenOf pad P x y z}
      ∧ ((markUndirected pad P x y z).tables P).c2 y
        = (pad.tables P).c2 y ∪ {tokenOf pad P x y z}
      ∧ ((markUndirected pad P x y z).tables P).c2 z
        = (pad.tables P).c2 z ∪ {tokenOf pad P x y z}
      ∧ (∀ w, w ≠ x → w ≠ y → w ≠ z →
          ((markUndirected pad P x y z).tables P).c2 w = (pad.tables P).c2 w)
      ∧ (∀ q, q ≠ P → (markUndirected pad P x y z).tables q = pad.tables q)
      ∧ (∀ q w, ((markUndirected pad P x y z).tables q).c1 w = (pad.tables q).c1 w) := by
  refine ⟨by simp [markUndirected], by simp [markUndirected], by simp [markUndirected],
    ?_, ?_, ?_⟩
  · intro w h1 h2 h3
    simp [markUndirected, h1, h2, h3]
  · intro q hq
    simp [markUndirected, hq]
  · intro q w
    simp only [markUndirected]
    by_cases hq : q = P <;> simp [hq]

/-- Witness for the amended C2 theorem, at the first event of the replay:
token 1 is added to A's Column-2 set, D's set and p01's table are
untouched, and Column 1 is untouched. -/
theorem mark_pad_undirected_adds_shared_token_witness :
    ((markUndirected padU "p02" "C" "B" "A").tables "p02").c2 "A"
        = (padU.tables "p02").c2 "A" ∪ {tokenOf padU "p02" "C" "B" "A"}
      ∧ ((markUndirected padU "p02" "C" "B" "A").tables "p02").c2 "D"
        = (padU.tables "p02").c2 "D"
      ∧ (markUndirected padU "p02" "C" "B" "A").tables "p01" = padU.tables "p01"
      ∧ ((markUndirected padU "p02" "C" "B" "A").tables "p02").c1 "A"
        = (padU.tables "p02").c1 "A" := by
  have h := mark_pad_undirected_adds_shared_token padU "p02" "C" "B" "A"
  exact ⟨h.2.2.1, h.2.2.2.1 "D" (by decide) (by decide) (by decide),
    h.2.2.2.2.1 "p01" (by decide), h.2.2.2.2.2 "p02" "A"⟩

/-- C3 (code_bug evaluation): the instance cap is never enforced.  Six
consecutive constructions from a fresh class attribute all succeed,
because `self._player_count += 1` binds an instance attribute and leaves
the class attribute at 0, so the guard `<= 5` always passes; the claim
says the 6th must fail with `PlayerLimitExceeded`. -/
theorem player_limit_never_enforced :
    runConstructions 6 0 = [true, true, true, true, true, true] := rfl

/-- C10: `update` never mutates the game-state payload it was given; the
returned (threaded-through) payload is the argument itself, in every
branch of the dispatcher, because the undirected-answer branch pops cards
only from a copy of the payload's card list. -/
theorem update_preserves_game_state (pl : Player) (gs : GameState) :
    (update pl gs).2.2 = gs := by
  have hA : (updateAnswer pl gs).2.2 = gs := by
    unfold updateAnswer
    cases hans : gs.answer with
    | none => rfl
    | some ans =>
      dsimp only
      rcases hm : mark_pad pl.pad ans gs.cards with ⟨o, pad'⟩
      cases o with
      | errored => rfl
      | finished acc => cases acc <;> rfl
  unfold update
  cases hs : gs.suggestion with
  | none => exact hA
  | some sg =>
    by_cases h : sg.to_player = some pl.player_id <;> simp [h, hA]

/-- C4: when `update` receives an answer naming a specific card, the
responding player's Column 1 for that card is set to 1, that card's
Column-2 set is cleared in every tracked player's table, and no other
Column-1 or Column-2 cell changes. -/
theorem update_directed_reveal_marks_and_clears (pl : Player) (gs : GameState)
    (ans : Answer) (c : String)
    (hsg : gs.suggestion = none)
    (hans : gs.answer = some ans)
    (hhc : ans.has_card = none)
    (hc : ans.card = some c) :
    (((update pl gs).2.1).pad.tables ans.from_player).c1 c = 1
      ∧ (∀ p ∈ pl.pad.players, (((update pl gs).2.1).pad.tables p).c2 c = ∅)
      ∧ (∀ p w, w ≠ c → (((update pl gs).2.1).pad.tables p).c2 w = (pl.pad.tables p).c2 w)
      ∧ (∀ p w, ¬(p = ans.from_player ∧ w = c) →
          (((update pl gs).2.1).pad.tables p).c1 w = (pl.pad.tables p).c1 w) := by
  have hpad : ((update pl gs).2.1).pad = directedReveal pl.pad ans.from_player c := by
    unfold update
    rw [hsg]
    unfold updateAnswer
    rw [hans]
    dsimp only
    have hm : mark_pad pl.pad ans gs.cards
        = (.finished (analyze_table_to_accuse (directedReveal pl.pad ans.from_player c)),
           directedReveal pl.pad ans.from_player c) := by
      unfold mark_pad
      rw [hhc, hc]
    rw [hm]
    cases analyze_table_to_accuse (directedReveal pl.pad ans.from_player c) <;> rfl
  rw [hpad]
  unfold directedReveal
  refine ⟨?_, ?_, ?_, ?_⟩
  · have h1 := clear_c2_cells_c1 (setC1 pl.pad ans.from_player c 1) c ans.from_player
    rw [h1]
    exact setC1_c1_self pl.pad ans.from_player c 1
  · intro p hp
    exact clear_c2_cells_c2_tracked (setC1 pl.pad ans.from_player c 1) c p hp
  · intro p w hw
    rw [clear_c2_cells_c2_other (setC1 pl.pad ans.from_player c 1) c p w hw]
    rw [setC1_c2]
  · intro p w hpw
    have h1 := clear_c2_cells_c1 (setC1 pl.pad ans.from_player c 1) c p
    rw [h1]
    exact setC1_c1_other pl.pad ans.from_player c 1 p w hpw

/-- Witness for C4: p02's directed reveal of Rope, recorded on a pad whose
Column-2 sets carry noise, marks p02's Column 1 for Rope, empties Rope's
Column-2 set for the unrelated player p03, and leaves p03's Knife
Column-2 set and Column-1 entries untouched. -/
theorem update_directed_reveal_marks_and_clears_witness :
    (((update plW gsW).2.1).pad.tables "p02").c1 "Rope" = 1
      ∧ (((update plW gsW).2.1).pad.tables "p03").c2 "Rope" = ∅
      ∧ (((update plW gsW).2.1).pad.tables "p03").c2 "Knife"
          = (plW.pad.tables "p03").c2 "Knife"
      ∧ (((update plW gsW).2.1).pad.tables "p03").c1 "Rope"
          = (plW.pad.tables "p03").c1 "Rope" := by
  have h := update_directed_reveal_marks_and_clears plW gsW ⟨"p02", none, some "Rope"⟩
    "Rope" rfl rfl rfl rfl
  exact ⟨h.1, h.2.1 "p03" (by decide), h.2.2.1 "p03" "Knife" (by decide),
    h.2.2.2 "p03" "Rope" (by decide)⟩

/-- C5: a directed suggestion of three cards addressed to this player is
answered with the first suggested card (in input order) whose Column-1
entry in this player's own table is 1, with the sentinel when none is
marked; the answering player's state and the payload are unchanged. -/
theorem update_answers_directed_suggestion (pl : Player) (gs : GameState)
    (sg : Suggestion) (a b c : String)
    (hsg : gs.suggestion = some sg)
    (hto : sg.to_player = some pl.player_id)
    (hcards : sg.cards = [a, b, c]) :
    (update pl gs).1 = .answerCard
        (if (pl.pad.tables pl.player_id).c1 a = 1 then a
         else if (pl.pad.tables pl.player_id).c1 b = 1 then b
         else if (pl.pad.tables pl.player_id).c1 c = 1 then c
         else "no_match")
      ∧ (update pl gs).2.1 = pl
      ∧ (update pl gs).2.2 = gs := by
  have hu : update pl gs = (.answerCard (answer pl sg.cards), pl, gs) := by
    unfold update
    rw [hsg]
    dsimp only
    rw [if_pos hto]
  refine ⟨?_, by rw [hu], by rw [hu]⟩
  rw [hu, hcards]
  unfold answer
  by_cases ha : (pl.pad.tables pl.player_id).c1 a = 1
  · simp [List.find?, ha]
  · have hfa : ((pl.pad.tables pl.player_id).c1 a == 1) = false :=
      beq_eq_false_iff_ne.mpr ha
    by_cases hb : (pl.pad.tables pl.player_id).c1 b = 1
    · simp [List.find?, ha, hfa, hb]
    · have hfb : ((pl.pad.tables pl.player_id).c1 b == 1) = false :=
        beq_eq_false_iff_ne.mpr hb
      by_cases hcm : (pl.pad.tables pl.player_id).c1 c = 1
      · simp [List.find?, ha, hfa, hb, hfb, hcm]
      · have hfc : ((pl.pad.tables pl.player_id).c1 c == 1) = false :=
          beq_eq_false_iff_ne.mpr hcm
        simp [List.find?, ha, hfa, hb, hfb, hcm, hfc]

/-- Witness for C5: p01, holding Rope, answers the suggestion
Mustard, Rope, Study with Rope, and neither its state nor the payload
changes. -/
theorem update_answers_directed_suggestion_witness :
    (update plA gsA).1 = .answerCard "Rope"
      ∧ (update plA gsA).2.1 = plA
      ∧ (update plA gsA).2.2 = gsA := by
  have h := update_answers_directed_suggestion plA gsA
    ⟨some "p01", ["Mustard", "Rope", "Study"]⟩ "Mustard" "Rope" "Study" rfl rfl rfl
  refine ⟨?_, h.2.1, h.2.2⟩
  rw [h.1]
  norm_num [plA, padA, tblA, tbl0]

/-- Helper: `find?` returns the first element satisfying the predicate. -/
theorem find?_first_match (p : String → Bool) (pre : List String) (c : String)
    (post : List String) (hpre : ∀ x ∈ pre, p x = false) (hc : p c = true) :
    (pre ++ c :: post).find? p = some c := by
  induction pre with
  | nil => simp [List.find?_cons_of_pos, hc]
  | cons a as ih =>
    have ha : p a = false := hpre a (by simp)
    rw [List.cons_append, List.find?_cons_of_neg _ (by simp [ha])]
    exact ih fun x hx => hpre x (by simp [hx])

/-- Helper: Column 1 after marking a hand is 1 exactly on the dealt cards,
in the marked player's table. -/
theorem mark_fold_c1 (pid : String) (dealt : List String) (pad : Pad) (w : String) :
    ((dealt.foldl (fun pd card => setC1 pd pid card 1) pad).tables pid).c1 w
      = if w ∈ dealt then 1 else (pad.tables pid).c1 w := by
  induction dealt generalizing pad with
  | nil => simp
  | cons d rest ih =>
    simp only [List.foldl_cons]
    rw [ih]
    by_cases hw : w ∈ rest
    · simp [hw]
    · by_cases hwd : w = d
      · subst hwd
        simp only [hw, if_false, List.mem_cons, true_or, if_true]
        exact setC1_c1_self pad pid w 1
      · simp only [hw, if_false, List.mem_cons, hwd, false_or]
        exact setC1_c1_other pad pid d 1 pid w fun hpw => hwd hpw.2

/-- Helper: marking a hand never touches Column 2. -/
theorem mark_fold_c2 (pid : String) (dealt : List String) (pad : Pad) (p : String) :
    ((dealt.foldl (fun pd card => setC1 pd pid card 1) pad).tables p).c2
      = (pad.tables p).c2 := by
  induction dealt generalizing pad with
  | nil => rfl
  | cons d rest ih =>
    simp only [List.foldl_cons]
    rw [ih, setC1_c2]

/-- Helper: marking a hand never touches another player's table. -/
theorem mark_fold_other (pid : String) (dealt : List String) (pad : Pad) (p : String)
    (hp : p ≠ pid) :
    (dealt.foldl (fun pd card => setC1 pd pid card 1) pad).tables p = pad.tables p := by
  induction dealt generalizing pad with
  | nil => rfl
  | cons d rest ih =>
    simp only [List.foldl_cons]
    rw [ih, setC1_tables_other _ _ _ _ _ hp]

/-- C6: `receive_cards` fails with `InvalidHandSize` on a hand outside
[3,6] and with `UnrecognizedCard` (naming the first offender) when a card
is not recognized, and in both failure cases the returned state is the
input state: validation precedes mutation. -/
theorem receive_cards_validates_before_mutation (pl : Player) (dealt : List String) :
    (¬(3 ≤ dealt.length ∧ dealt.length ≤ 6) →
        receive_cards pl dealt = (pl, some .invalidHandSize))
      ∧ (∀ pre card post, dealt = pre ++ card :: post →
          (3 ≤ dealt.length ∧ dealt.length ≤ 6) →
          (∀ x ∈ pre, verify_card pl x = true) → verify_card pl card = false →
          receive_cards pl dealt = (pl, some (.unrecognizedCard card))) := by
  constructor
  · intro h
    simp [receive_cards, h]
  · intro pre card post hdl hlen hpre hcard
    have hfind : dealt.find? (fun x => !(verify_card pl x)) = some card := by
      rw [hdl]
      exact find?_first_match _ pre card post (fun x hx => by simp [hpre x hx])
        (by simp [hcard])
    simp [receive_cards, hlen, hfind]

/-- Witness for C6: a 7-card hand fails with `InvalidHandSize`, a 3-card
hand containing the unrecognized card Bogus fails naming it, and both
leave the player (hence the tracking matrix) untouched. -/
theorem receive_cards_validates_before_mutation_witness :
    receive_cards plR ["Mustard", "Rope", "Study", "Knife", "Hall", "White", "Mustard"]
        = (plR, some .invalidHandSize)
      ∧ receive_cards plR ["Mustard", "Bogus", "Rope"]
        = (plR, some (.unrecognizedCard "Bogus")) := by
  have h7 := receive_cards_validates_before_mutation plR
    ["Mustard", "Rope", "Study", "Knife", "Hall", "White", "Mustard"]
  have h3 := receive_cards_validates_before_mutation plR ["Mustard", "Bogus", "Rope"]
  exact ⟨h7.1 (by decide),
    h3.2 ["Mustard"] "Bogus" ["Rope"] rfl (by decide) (by decide) (by decide)⟩

/-- C7: a valid hand is accepted and sets Column 1 to 1 for exactly the
dealt cards in this player's own sub-table; every Column-2 set and every
other player's table is unchanged. -/
theorem receive_cards_marks_exactly_dealt_cards (pl : Player) (dealt : List String)
    (hlen : 3 ≤ dealt.length ∧ dealt.length ≤ 6)
    (hrec : ∀ x ∈ dealt, verify_card pl x = true) :
    (receive_cards pl dealt).2 = none
      ∧ (∀ w, (((receive_cards pl dealt).1).pad.tables pl.player_id).c1 w
          = if w ∈ dealt then 1 else (pl.pad.tables pl.player_id).c1 w)
      ∧ (∀ p, (((receive_cards pl dealt).1).pad.tables p).c2 = (pl.pad.tables p).c2)
      ∧ (∀ p, p ≠ pl.player_id →
          ((receive_cards pl dealt).1).pad.tables p = pl.pad.tables p) := by
  have hfind : dealt.find? (fun x => !(verify_card pl x)) = none := by
    rw [List.find?_eq_none]
    intro x hx
    simp [hrec x hx]
  have hrc : receive_cards pl dealt = (mark_my_cards_on_pad pl dealt, none) := by
    simp [receive_cards, hlen, hfind]
  rw [hrc]
  exact ⟨rfl, fun w => mark_fold_c1 pl.player_id dealt pl.pad w,
    fun p => mark_fold_c2 pl.player_id dealt pl.pad p,
    fun p hp => mark_fold_other pl.player_id dealt pl.pad p hp⟩

/-- Witness for C7: dealing Mustard, Rope, Study to p01 on a blank pad
succeeds, marks Mustard, leaves Hall at 0, and leaves p02's table
untouched. -/
theorem receive_cards_marks_exactly_dealt_cards_witness :
    (receive_cards plR ["Mustard", "Rope", "Study"]).2 = none
      ∧ (((receive_cards plR ["Mustard", "Rope", "Study"]).1).pad.tables "p01").c1 "Mustard"
          = 1
      ∧ (((receive_cards plR ["Mustard", "Rope", "Study"]).1).pad.tables "p01").c1 "Hall"
          = 0
      ∧ ((receive_cards plR ["Mustard", "Rope", "Study"]).1).pad.tables "p02"
          = plR.pad.tables "p02" := by
  have h := receive_cards_marks_exactly_dealt_cards plR ["Mustard", "Rope", "Study"]
    (by decide) (by decide)
  refine ⟨h.1, ?_, ?_, h.2.2.2 "p02" (by decide)⟩
  · have hm := h.2.1 "Mustard"
    rw [if_pos (by decide)] at hm
    exact hm
  · have hh := h.2.1 "Hall"
    rw [if_neg (by decide)] at hh
    exact hh.trans (by decide)

/-- Helper: the chosen sampler stand-in picks a member. -/
theorem headChoice_mem (l : List String) (h : l ≠ []) : headChoice l ∈ l := by
  cases l with
  | nil => exact absurd rfl h
  | cons a as => simp [headChoice]

/-- Helper: membership in the first-stage candidate list. -/
theorem mem_available_moves (neighbors occupied prior : List String) (x : String) :
    x ∈ available_moves neighbors occupied prior ↔
      x ∈ neighbors ∧ x ∉ occupied ∧ x ∉ prior := by
  simp [available_moves, List.mem_filter]

/-- Helper: membership in the fallback candidate list. -/
theorem mem_possible_moves (neighbors occupied : List String) (x : String) :
    x ∈ possible_moves neighbors occupied ↔ x ∈ neighbors ∧ x ∉ occupied := by
  simp [possible_moves, List.mem_filter]

/-- Helper: everything `filter_moves` returns is an unoccupied neighbor. -/
theorem filter_moves_sound (neighbors occupied prior : List String)
    (choice : List String → String) (hchoice : ∀ l, l ≠ [] → choice l ∈ l) :
    ∀ x ∈ filter_moves neighbors occupied prior choice,
      x ∈ neighbors ∧ x ∉ occupied := by
  intro x hx
  unfold filter_moves at hx
  split at hx
  · split at hx
    · simp at hx
    · rename_i hpos
      simp only [List.mem_singleton] at hx
      subst hx
      exact (mem_possible_moves neighbors occupied _).1 (hchoice _ hpos)
  · have h := (mem_available_moves neighbors occupied prior x).1 hx
    exact ⟨h.1, h.2.1⟩

/-- Helper: with an unoccupied neighbor on hand, `filter_moves` is
non-empty. -/
theorem filter_moves_ne_nil (neighbors occupied prior : List String)
    (choice : List String → String)
    (hex : ∃ n, n ∈ neighbors ∧ n ∉ occupied) :
    filter_moves neighbors occupied prior choice ≠ [] := by
  obtain ⟨n, hn, hno⟩ := hex
  have hmem : n ∈ possible_moves neighbors occupied :=
    (mem_possible_moves neighbors occupied n).2 ⟨hn, hno⟩
  unfold filter_moves
  split
  · split
    · rename_i hpos
      rw [hpos] at hmem
      simp at hmem
    · simp
  · rename_i hav
    exact hav

/-- Helper: `make_move` returns the first element of the iteration
order. -/
theorem make_move_head (m : String) (rest prior : List String) :
    (make_move (m :: rest) prior).1.move = m := by
  simp only [make_move]
  split <;> rfl

/-- C8: whenever some unoccupied 1-hop neighbor exists, the move chosen
from the filtered candidates (under any Python-set iteration order and
any sampler) is an unoccupied neighbor — never a location occupied by any
player. -/
theorem make_move_avoids_occupied (neighbors occupied prior order : List String)
    (choice : List String → String)
    (hchoice : ∀ l, l ≠ [] → choice l ∈ l)
    (horder : order.Perm (filter_moves neighbors occupied prior choice))
    (hex : ∃ n, n ∈ neighbors ∧ n ∉ occupied) :
    (make_move order prior).1.move ∈ neighbors
      ∧ (make_move order prior).1.move ∉ occupied := by
  have hne : filter_moves neighbors occupied prior choice ≠ [] :=
    filter_moves_ne_nil neighbors occupied prior choice hex
  have horder_ne : order ≠ [] := by
    intro h0
    subst h0
    exact hne (List.perm_nil.mp horder.symm)
  obtain ⟨m, rest, hor⟩ : ∃ m rest, order = m :: rest := by
    cases order with
    | nil => exact absurd rfl horder_ne
    | cons m rest => exact ⟨m, rest, rfl⟩
  subst hor
  have hm : m ∈ filter_moves neighbors occupied prior choice :=
    horder.mem_iff.mp (by simp)
  rw [make_move_head]
  exact filter_moves_sound neighbors occupied prior choice hchoice m hm

/-- Witness for C8: from neighbors Study and Hall with Hall occupied and
Study already visited, the fallback still picks Study — an unoccupied
neighbor. -/
theorem make_move_avoids_occupied_witness :
    (make_move (filter_moves ["Study", "Hall"] ["Hall"] ["Study"] headChoice)
        ["Study"]).1.move ∈ ["Study", "Hall"]
      ∧ (make_move (filter_moves ["Study", "Hall"] ["Hall"] ["Study"] headChoice)
          ["Study"]).1.move ∉ ["Hall"] :=
  make_move_avoids_occupied ["Study", "Hall"] ["Hall"] ["Study"]
    (filter_moves ["Study", "Hall"] ["Hall"] ["Study"] headChoice) headChoice
    headChoice_mem (List.Perm.refl _) ⟨"Study", by decide, by decide⟩

/-- C9: the move policy prefers unvisited unoccupied neighbors; when every
unoccupied neighbor is already visited the fallback returns exactly the
sampler's pick among the unoccupied neighbors (not an empty move); and
only when every neighbor is occupied is the empty move returned. -/
theorem move_policy_prefers_unvisited_with_fallback
    (neighbors occupied prior order : List String)
    (choice : List String → String)
    (hchoice : ∀ l, l ≠ [] → choice l ∈ l)
    (horder : order.Perm (filter_moves neighbors occupied prior choice)) :
    ((∃ n, n ∈ neighbors ∧ n ∉ occupied ∧ n ∉ prior) →
        (make_move order prior).1.move ∉ prior)
      ∧ ((∀ n, n ∈ neighbors → n ∉ occupied → n ∈ prior) →
          (∃ n, n ∈ neighbors ∧ n ∉ occupied) →
          (make_move order prior).1.move = choice (possible_moves neighbors occupied)
            ∧ (make_move order prior).1.move ∈ neighbors
            ∧ (make_move order prior).1.move ∉ occupied)
      ∧ ((∀ n, n ∈ neighbors → n ∈ occupied) → (make_move order prior).1.move = "") := by
  refine ⟨?_, ?_, ?_⟩
  · rintro ⟨n, hn, hno, hnp⟩
    have hnav : n ∈ available_moves neighbors occupied prior :=
      (mem_available_moves neighbors occupied prior n).2 ⟨hn, hno, hnp⟩
    have hav_ne : available_moves neighbors occupied prior ≠ [] := by
      intro h0
      rw [h0] at hnav
      simp at hnav
    have hfeq : filter_moves neighbors occupied prior choice
        = available_moves neighbors occupied prior := by
      unfold filter_moves
      rw [if_neg hav_ne]
    have horder_ne : order ≠ [] := by
      intro h0
      subst h0
      exact hav_ne (hfeq ▸ List.perm_nil.mp horder.symm)
    obtain ⟨m, rest, hor⟩ : ∃ m rest, order = m :: rest := by
      cases order with
      | nil => exact absurd rfl horder_ne
      | cons m rest => exact ⟨m, rest, rfl⟩
    subst hor
    have hm : m ∈ filter_moves neighbors occupied prior choice :=
      horder.mem_iff.mp (by simp)
    rw [hfeq] at hm
    rw [make_move_head]
    exact ((mem_available_moves neighbors occupied prior m).1 hm).2.2
  · intro hall hex
    have hav : available_moves neighbors occupied prior = [] := by
      by_contra h0
      obtain ⟨x, hx⟩ := List.exists_mem_of_ne_nil _ h0
      have h := (mem_available_moves neighbors occupied prior x).1 hx
      exact h.2.2 (hall x h.1 h.2.1)
    obtain ⟨n, hn, hno⟩ := hex
    have hpos_ne : possible_moves neighbors occupied ≠ [] := by
      intro h0
      have hmem : n ∈ possible_moves neighbors occupied :=
        (mem_possible_moves neighbors occupied n).2 ⟨hn, hno⟩
      rw [h0] at hmem
      simp at hmem
    have hfeq : filter_moves neighbors occupied prior choice
        = [choice (possible_moves neighbors occupied)] := by
      unfold filter_moves
      rw [if_pos hav, if_neg hpos_ne]
    have hor : order = [choice (possible_moves neighbors occupied)] :=
      List.perm_singleton.mp (hfeq ▸ horder)
    rw [hor, make_move_head]
    have hcm := (mem_possible_moves neighbors occupied _).1 (hchoice _ hpos_ne)
    exact ⟨rfl, hcm.1, hcm.2⟩
  · intro hall
    have hav : available_moves neighbors occupied prior = [] := by
      by_contra h0
      obtain ⟨x, hx⟩ := List.exists_mem_of_ne_nil _ h0
      have h := (mem_available_moves neighbors occupied prior x).1 hx
      exact h.2.1 (hall x h.1)
    have hpos : possible_moves neighbors occupied = [] := by
      by_contra h0
      obtain ⟨x, hx⟩ := List.exists_mem_of_ne_nil _ h0
      have h := (mem_possible_moves neighbors occupied x).1 hx
      exact h.2 (hall x h.1)
    have hfeq : filter_moves neighbors occupied prior choice = [] := by
      unfold filter_moves
      rw [if_pos hav, if_pos hpos]
    have hor : order = [] := List.perm_nil.mp (hfeq ▸ horder)
    rw [hor]
    rfl

/-- Witness for C9, at the fallback case of the claim: with the single
neighbor A unoccupied but already visited, the chosen move is A, not the
empty move. -/
theorem move_policy_prefers_unvisited_with_fallback_witness :
    (make_move (filter_moves ["A"] [] ["A"] headChoice) ["A"]).1.move = "A" := by
  have h := move_policy_prefers_unvisited_with_fallback ["A"] [] ["A"]
    (filter_moves ["A"] [] ["A"] headChoice) headChoice headChoice_mem
    (List.Perm.refl _)
  have hb := h.2.1 (fun n hn _ => hn) ⟨"A", by simp, by simp⟩
  rw [hb.1]
  rfl

end Clueless
